import Mathlib

/-!
Shallow embedding of the coordination logic of the whisper-sync-global chat
application: direct-conversation identifiers, message delivery status,
reactions, per-viewer deletion, chat requests, group membership, the
maintenance-mode gate, and the sign-in suspension check.  Each definition
mirrors one function of the TypeScript source; theorems settle the spec's
claims about them.
-/

namespace WhisperSync

/-! ## Conversation Directory (ChatSidebar.tsx)

`const chatId = [user.uid, otherUser.uid].sort().join('_')` — the direct
conversation id is the lexicographically sorted pair of uids joined by an
underscore. -/

/-- JS `String.prototype.trim()`: strip leading and trailing
whitespace. -/
def jsTrim (s : String) : String :=
  ⟨((s.data.dropWhile Char.isWhitespace).reverse.dropWhile
      Char.isWhitespace).reverse⟩

/-- JS `Array.sort()` on a two-element array of strings: the smaller string
first (stable for equal elements). -/
def sortPair (a b : String) : List String :=
  if a ≤ b then [a, b] else [b, a]

/-- `[uidA, uidB].sort().join('_')` from `ChatSidebar.tsx`. -/
def directIdFor (a b : String) : String :=
  String.intercalate "_" (sortPair a b)

/-- C1: the direct-conversation identifier is order-independent: computed
from (A,B) it equals the identifier computed from (B,A), being the sorted
pair of the two user IDs joined into one string. -/
theorem directIdFor_comm (a b : String) : directIdFor a b = directIdFor b a := by
  unfold directIdFor sortPair
  rcases le_total a b with h | h
  · by_cases h' : b ≤ a
    · have hab : a = b := le_antisymm h h'
      subst hab; rfl
    · rw [if_pos h, if_neg h']
  · by_cases h' : a ≤ b
    · have hab : a = b := le_antisymm h' h
      subst hab; rfl
    · rw [if_neg h', if_pos h]

/-! ## Realtime-database values

Firebase RTDB stores JSON trees.  `update(ref(db, p), patch)` merges the
patch's keys into the children of `p`; writing a child under a location
that currently holds a primitive replaces the primitive with an object. -/

/-- A JSON value stored at one RTDB location, as much of it as the message
status field needs: a string primitive, a boolean primitive, or an object
(children keyed by name). -/
inductive RtdbValue where
  | str (s : String)
  | boolVal (b : Bool)
  | obj (children : List (String × RtdbValue))

/-- JS strict equality `v === s` between a stored value and a string
literal: true exactly when the value is that string primitive (an object
never compares equal to a string). -/
def RtdbValue.isStr (v : RtdbValue) (s : String) : Bool :=
  match v with
  | .str t => t = s
  | _ => false

/-- Set the key `k` of a JS object's entries to `v` (JS object key
semantics: overwrite in place if present, else append). -/
def setChild {α : Type} (cs : List (String × α)) (k : String) (v : α) :
    List (String × α) :=
  if cs.any (fun p => p.1 = k) then
    cs.map (fun p => if p.1 = k then (k, v) else p)
  else cs ++ [(k, v)]

/-- A JS object literal built from a list of key/value entries, later
duplicate keys overwriting earlier ones. -/
def objOfEntries {α : Type} (es : List (String × α)) : List (String × α) :=
  es.foldl (fun acc p => setChild acc p.1 p.2) []

/-- Look a key up in a JS object's entries. -/
def lookupEntry {α : Type} (cs : List (String × α)) (k : String) : Option α :=
  (cs.find? (fun p => p.1 = k)).map (fun p => p.2)

/-- `update(ref(database, \x7b...\x7d/status), { seen: true })` from
`markMessagesAsSeen`: merges the key `seen` into the children of the
`status` location.  A primitive status (`'sent'`, `'delivered'`) is
replaced by the object `{ seen: true }`. -/
def updateStatusSeen (status : RtdbValue) : RtdbValue :=
  match status with
  | .obj cs => .obj (setChild cs "seen" (.boolVal true))
  | _ => .obj [("seen", .boolVal true)]

/-! ## Message Store & Delivery State (unnamed chat-area component)

`handleSendMessage` pushes `{ text, senderId, timestamp, status: 'sent' }`;
`markMessagesAsSeen` updates every incoming message whose status is not
`'seen'`; `getMessageStatusIcon` renders the double-blue / double-gray /
single check from the status string. -/

/-- The fields of a stored chat message that the delivery state machine
reads and writes. -/
structure Message where
  text : String
  senderId : String
  timestamp : Nat
  status : RtdbValue

/-- `markMessagesAsSeen(messagesList)`: every message not sent by the
viewer and whose status is not the string `'seen'` receives the
`{ seen: true }` status update; the rest are untouched. -/
def markMessagesAsSeen (viewer : String) (messagesList : List Message) :
    List Message :=
  messagesList.map (fun m =>
    if (m.senderId != viewer) && !(m.status.isStr "seen") then
      { m with status := updateStatusSeen m.status }
    else m)

/-- The three tick glyphs (or none, for messages the viewer did not send)
rendered by `getMessageStatusIcon`. -/
inductive StatusIcon where
  | seenTicks
  | deliveredTicks
  | sentTick
  | noIcon
deriving DecidableEq

/-- `getMessageStatusIcon(message)`: `null` unless the viewer is the
sender; blue double check for status `'seen'`, gray double check for
`'delivered'`, single check otherwise. -/
def getMessageStatusIcon (viewer : String) (m : Message) : StatusIcon :=
  if m.senderId != viewer then .noIcon
  else if m.status.isStr "seen" then .seenTicks
  else if m.status.isStr "delivered" then .deliveredTicks
  else .sentTick

/-- `handleSendMessage`: rejected when the trimmed text is empty,
otherwise pushes a new message with status `'sent'`. -/
def handleSendMessage (msgs : List Message) (sender text : String)
    (now : Nat) : List Message :=
  if jsTrim text = "" then msgs
  else msgs ++ [⟨jsTrim text, sender, now, .str "sent"⟩]

/-- C2: the claim expects `markSeen` to advance the status to the string
`'seen'` and stay there; instead the source's write
`update(ref(db, .../status), { seen: true })` turns the status into the
object `{ seen: true }`.  The resulting status never equals `'seen'`, the
sender's icon stays the single "sent" check, and the message keeps
matching `markMessagesAsSeen`'s unseen filter, which rewrites it on every
later pass without ever reaching the `'seen'` state. -/
theorem markSeen_never_reaches_seen :
    let m : Message := ⟨"hi", "bob", 1, .str "sent"⟩
    let m' : Message := ⟨"hi", "bob", 1, .obj [("seen", .boolVal true)]⟩
    markMessagesAsSeen "alice" [m] = [m'] ∧
    m'.status.isStr "seen" = false ∧
    getMessageStatusIcon "bob" m' = .sentTick ∧
    markMessagesAsSeen "alice" [m'] = [m'] := by
  exact ⟨rfl, rfl, rfl, rfl⟩

/-! ## Reactions and per-viewer deletion (MessageActions.tsx)

`handleReaction` writes `reactions/{uid} = emoji` (or `null` to clear when
the user's current reaction already is that emoji); `handleDeleteForMe`
writes `deletedFor` as the old array with the caller's uid appended. -/

/-- The `reactions` object of a message: a keyed map `userId -> emoji`
(`null`/absent key means no reaction). -/
def Reactions : Type := String → Option String

/-- `handleReaction(emoji)`: returns unchanged when the
`enableMessageReactions` flag is off; otherwise clears the caller's entry
when their current reaction equals `emoji`, else sets it to `emoji`.
Other users' entries are untouched. -/
def handleReaction (enableMessageReactions : Bool) (reactions : Reactions)
    (uid emoji : String) : Reactions :=
  if !enableMessageReactions then reactions
  else fun u =>
    if u = uid then
      if reactions uid = some emoji then none else some emoji
    else reactions u

/-- A sequence of `handleReaction` calls, each a (userId, emoji) pair,
applied left to right. -/
def applyReactions (flag : Bool) (reactions : Reactions)
    (ops : List (String × String)) : Reactions :=
  ops.foldl (fun acc p => handleReaction flag acc p.1 p.2) reactions

/-- The effect of one react call on a single user's own entry. -/
def toggleEmoji (cur : Option String) (emoji : String) : Option String :=
  if cur = some emoji then none else some emoji

/-- The fold of one user's own react calls over their entry. -/
def applyUserOps (cur : Option String) (emojis : List String) : Option String :=
  emojis.foldl toggleEmoji cur

/-- Each react call only rewrites the acting user's entry, so a fold of
calls restricted to one user computes that user's final reaction. -/
theorem applyReactions_eq_applyUserOps (reactions : Reactions)
    (ops : List (String × String)) (u : String) :
    applyReactions true reactions ops u =
      applyUserOps (reactions u)
        ((ops.filter (fun p => p.1 = u)).map Prod.snd) := by
  induction ops generalizing reactions with
  | nil => rfl
  | cons hd tl ih =>
    have step : applyReactions true reactions (hd :: tl) u =
        applyReactions true (handleReaction true reactions hd.1 hd.2) tl u := rfl
    rw [step, ih]
    by_cases hu : hd.1 = u
    · have hsel : handleReaction true reactions hd.1 hd.2 u =
          toggleEmoji (reactions u) hd.2 := by
        simp [handleReaction, toggleEmoji, hu]
      rw [hsel]
      have hf : (hd :: tl).filter (fun p => p.1 = u) =
          hd :: tl.filter (fun p => p.1 = u) := by
        simp [List.filter_cons, hu]
      rw [hf]
      rfl
    · have hsel : handleReaction true reactions hd.1 hd.2 u = reactions u := by
        simp [handleReaction]
        intro h
        exact absurd h.symm hu
      rw [hsel]
      have hf : (hd :: tl).filter (fun p => p.1 = u) =
          tl.filter (fun p => p.1 = u) := by
        simp [List.filter_cons, hu]
      rw [hf]

/-- C3: reacting with the emoji the user currently holds clears that
user's reaction; reacting with a different emoji replaces it; other users
are untouched; and after any sequence of react calls each user's entry is
the last-write-wins toggle fold of their own calls — a single `Option`
value, never more than one active reaction per user. -/
theorem handleReaction_toggle_spec (reactions : Reactions)
    (uid emoji : String) :
    (reactions uid = some emoji →
      handleReaction true reactions uid emoji uid = none) ∧
    (reactions uid ≠ some emoji →
      handleReaction true reactions uid emoji uid = some emoji) ∧
    (∀ u, u ≠ uid → handleReaction true reactions uid emoji u = reactions u) ∧
    (∀ ops : List (String × String), ∀ u,
      applyReactions true reactions ops u =
        applyUserOps (reactions u)
          ((ops.filter (fun p => p.1 = u)).map Prod.snd)) := by
  refine ⟨fun h => ?_, fun h => ?_, fun u hu => ?_, fun ops u => ?_⟩
  · simp [handleReaction, h]
  · simp [handleReaction, h]
  · simp [handleReaction, hu]
  · exact applyReactions_eq_applyUserOps reactions ops u

/-- Witness for C3 at a concrete reactions map: user `u1` holds `❤️`;
re-sending `❤️` clears it. -/
theorem handleReaction_toggle_spec_witness :
    handleReaction true
      (fun u => if u = "u1" then some "❤️" else none) "u1" "❤️" "u1" = none :=
  (handleReaction_toggle_spec
    (fun u => if u = "u1" then some "❤️" else none) "u1" "❤️").1 rfl

/-- `handleDeleteForMe`: returns unchanged when the
`enableMessageDeletion` flag is off; otherwise writes `deletedFor` as the
previous array with the caller's uid appended — unconditionally, with no
membership check. -/
def handleDeleteForMe (enableMessageDeletion : Bool)
    (deletedFor : List String) (uid : String) : List String :=
  if !enableMessageDeletion then deletedFor
  else deletedFor ++ [uid]

/-- C4 counterexample: a second `deleteForSelf` for the same (message,
user) does not leave `deletedFor` unchanged — the uid is appended again,
producing a duplicate. -/
theorem handleDeleteForMe_not_idempotent :
    handleDeleteForMe true (handleDeleteForMe true [] "u1") "u1" =
      ["u1", "u1"] ∧
    handleDeleteForMe true (handleDeleteForMe true [] "u1") "u1" ≠
      handleDeleteForMe true [] "u1" ∧
    ¬ (["u1", "u1"] : List String).Nodup := by
  refine ⟨rfl, by decide, by decide⟩

/-- C4 amended: `deleteForSelf` appends the caller's uid unconditionally
(list, not set, semantics): a second call for the same (message, user)
appends a duplicate entry, though membership — whether the message is
deleted for a given viewer — is unchanged by the repeat call. -/
theorem handleDeleteForMe_append (l : List String) (uid : String) :
    handleDeleteForMe true (handleDeleteForMe true l uid) uid =
      l ++ [uid, uid] ∧
    (∀ v, v ∈ handleDeleteForMe true (handleDeleteForMe true l uid) uid ↔
      v ∈ handleDeleteForMe true l uid) ∧
    uid ∈ handleDeleteForMe true l uid := by
  refine ⟨by simp [handleDeleteForMe], fun v => ?_, by simp [handleDeleteForMe]⟩
  simp [handleDeleteForMe]

/-! ## Chat-Request Gate (ChatSidebar.tsx `handleStartChat`)

When the target user is verified and the sender is not, and the direct
chat has no messages yet, `handleStartChat` pushes a `pending` request
under `chatRequests/{recipient}/{chatId}` and returns without opening the
chat; in every other case it opens the chat via `onSelectChat`. -/

/-- `status` of a chat request. -/
inductive ReqStatus where
  | pending
  | accepted
  | rejected
deriving DecidableEq

/-- The fields of a pushed chat request that the gate logic reads (the
source's `from` field is spelled `fromUid`, `from` being reserved). -/
structure ChatRequest where
  fromUid : String
  status : ReqStatus
  timestamp : Nat
deriving DecidableEq

/-- The store state `handleStartChat` touches: the request entries pushed
under `chatRequests/{recipient}/{chatId}` and whether
`chats/{chatId}/messages` has any entry. -/
structure DirectChatState where
  requests : List ChatRequest
  messagesExist : Bool
deriving DecidableEq

/-- Result of one `handleStartChat` call: the updated store and the chat
id passed to `onSelectChat` (none when the call returned after sending a
request). -/
structure StartChatOutcome where
  state : DirectChatState
  openedChat : Option String
deriving DecidableEq

/-- `handleStartChat(otherUser)` from `ChatSidebar.tsx`: checks
`otherUser.isVerified && !userProfile?.isVerified`, then whether the chat
snapshot exists; if not, pushes a `pending` request (push appends a new
child) and returns; otherwise falls through to `onSelectChat(chatId)`. -/
def handleStartChat (senderUid : String) (senderVerified : Bool)
    (recipientUid : String) (recipientVerified : Bool)
    (st : DirectChatState) (now : Nat) : StartChatOutcome :=
  let chatId := directIdFor senderUid recipientUid
  if recipientVerified && !senderVerified then
    if !st.messagesExist then
      { state := { st with
          requests := st.requests ++ [⟨senderUid, .pending, now⟩] },
        openedChat := none }
    else { state := st, openedChat := some chatId }
  else { state := st, openedChat := some chatId }

/-- C5: a chat request is created iff the recipient is verified, the
sender is not, and no prior message exists; in that case exactly one new
pending request from the sender is appended and the chat is not opened,
and in every other case the store is unchanged and the chat is opened. -/
theorem handleStartChat_request_iff (s r : String) (sv rv : Bool)
    (st : DirectChatState) (now : Nat) :
    ((rv = true ∧ sv = false ∧ st.messagesExist = false) →
      handleStartChat s sv r rv st now =
        ⟨⟨st.requests ++ [⟨s, .pending, now⟩], st.messagesExist⟩, none⟩) ∧
    (¬(rv = true ∧ sv = false ∧ st.messagesExist = false) →
      handleStartChat s sv r rv st now = ⟨st, some (directIdFor s r)⟩) := by
  constructor
  · rintro ⟨h1, h2, h3⟩
    simp [handleStartChat, h1, h2, h3]
  · intro h
    cases hrv : rv <;> cases hsv : sv <;> cases hm : st.messagesExist <;>
      simp_all [handleStartChat]

/-- Witness for C5: unverified alice contacting verified bob with no
prior messages creates one pending request and opens nothing. -/
theorem handleStartChat_request_iff_witness :
    handleStartChat "alice" false "bob" true ⟨[], false⟩ 5 =
      ⟨⟨[⟨"alice", .pending, 5⟩], false⟩, none⟩ :=
  (handleStartChat_request_iff "alice" "bob" false true ⟨[], false⟩ 5).1
    ⟨rfl, rfl, rfl⟩

/-- C6 counterexample: with a pending request from alice already stored
and still no messages, a second send does not fail — it appends a second
pending request, so two pending requests from the same sender coexist. -/
theorem handleStartChat_second_send_duplicates :
    let st : DirectChatState := ⟨[⟨"alice", .pending, 5⟩], false⟩
    let out := handleStartChat "alice" false "bob" true st 9
    out.state.requests =
      [⟨"alice", .pending, 5⟩, ⟨"alice", .pending, 9⟩] ∧
    (out.state.requests.filter
      (fun q => q.fromUid = "alice" ∧ q.status = .pending)).length = 2 := by
  constructor <;> rfl

/-- C6 amended: `handleStartChat` performs no duplicate-request check: a
second send while a request from the same sender is pending succeeds and
appends another pending request, so the (from,to) pair can hold several
outstanding pending requests. -/
theorem handleStartChat_no_duplicate_check (s r : String)
    (st : DirectChatState) (now : Nat)
    (hpending : ∃ q ∈ st.requests, q.fromUid = s ∧ q.status = .pending)
    (hmsg : st.messagesExist = false) :
    (handleStartChat s false r true st now).state.requests =
      st.requests ++ [⟨s, .pending, now⟩] ∧
    (handleStartChat s false r true st now).openedChat = none := by
  constructor <;> simp [handleStartChat, hmsg]

/-- Witness for C6's amended claim at the concrete duplicated state. -/
theorem handleStartChat_no_duplicate_check_witness :
    (handleStartChat "alice" false "bob" true
        ⟨[⟨"alice", .pending, 5⟩], false⟩ 9).state.requests =
      [⟨"alice", .pending, 5⟩] ++ [⟨"alice", .pending, 9⟩] ∧
    (handleStartChat "alice" false "bob" true
        ⟨[⟨"alice", .pending, 5⟩], false⟩ 9).openedChat = none :=
  handleStartChat_no_duplicate_check "alice" "bob"
    ⟨[⟨"alice", .pending, 5⟩], false⟩ 9
    ⟨⟨"alice", .pending, 5⟩, by decide⟩ rfl

/-! ## Group Membership (ChatLayout.tsx `createGroup`,
AdminContext.tsx `addMemberToGroup` / `removeMemberFromGroup`)

`createGroup` pushes a group whose members object records the creating
user with role `'admin'` and each selected user with role `'member'`;
`addMemberToGroup` rejects when the roster size has reached the
configured `groupMemberLimit`; `removeMemberFromGroup` deletes the
member's entry. -/

/-- One entry of a group's `members` object. -/
structure GroupMember where
  role : String
  joinedAt : Nat
  addedBy : Option String
deriving DecidableEq

/-- A group as pushed under `groups/`. -/
structure Group where
  name : String
  createdBy : String
  createdAt : Nat
  members : List (String × GroupMember)
deriving DecidableEq

/-- `createGroup` from `ChatLayout.tsx`: returns early when the trimmed
name is empty or no user is selected; otherwise pushes a group whose
members object literal is `{ [creator]: { role: 'admin' }, ...selected
mapped to { role: 'member' } }`. -/
def createGroup (groupName creatorUid : String)
    (selectedUsers : List String) (now : Nat) : Option Group :=
  if jsTrim groupName = "" ∨ selectedUsers = [] then none
  else some
    { name := jsTrim groupName
      createdBy := creatorUid
      createdAt := now
      members := objOfEntries
        ((creatorUid, ⟨"admin", now, none⟩) ::
          selectedUsers.map (fun u => (u, ⟨"member", now, none⟩))) }

/-- The failures `addMemberToGroup` throws. -/
inductive GroupError where
  | groupNotFound
  | limitReached
deriving DecidableEq

/-- `addMemberToGroup(groupId, userId)` from `AdminContext.tsx`: throws
when the group is missing; throws when the current member-key count is
at or above `adminSettings.groupMemberLimit`; otherwise writes
`members/{userId} = { role: 'member', joinedAt, addedBy }`. -/
def addMemberToGroup (group? : Option Group) (groupMemberLimit : Nat)
    (userId : String) (now : Nat) (actor : Option String) :
    Except GroupError Group :=
  match group? with
  | none => .error .groupNotFound
  | some g =>
    if g.members.length ≥ groupMemberLimit then .error .limitReached
    else .ok { g with
      members := setChild g.members userId ⟨"member", now, actor⟩ }

/-- `removeMemberFromGroup(groupId, userId)`: removes the member's
entry. -/
def removeMemberFromGroup (g : Group) (userId : String) : Group :=
  { g with members := g.members.filter (fun p => p.1 ≠ userId) }

/-- C7: adding a member to a roster already at or above the configured
limit fails with the limit error; a write is only ever produced below the
limit; and a group of two members under a limit of two rejects the third
add. -/
theorem addMemberToGroup_limit (g : Group) (groupMemberLimit : Nat)
    (userId : String) (now : Nat) (actor : Option String) :
    (g.members.length ≥ groupMemberLimit →
      addMemberToGroup (some g) groupMemberLimit userId now actor =
        .error .limitReached) ∧
    (∀ g', addMemberToGroup (some g) groupMemberLimit userId now actor =
        .ok g' → g.members.length < groupMemberLimit) ∧
    (g.members.length = 2 →
      addMemberToGroup (some g) 2 userId now actor = .error .limitReached) := by
  refine ⟨fun h => ?_, fun g' h => ?_, fun h2 => ?_⟩
  · simp [addMemberToGroup, h]
  · by_cases hlt : g.members.length ≥ groupMemberLimit
    · simp [addMemberToGroup, hlt] at h
    · exact Nat.lt_of_not_le hlt
  · simp [addMemberToGroup, h2]

/-- Witness for C7: a creator-plus-one-member roster under limit 2
rejects a third add. -/
theorem addMemberToGroup_limit_witness :
    addMemberToGroup
      (some ⟨"g", "alice", 0,
        [("alice", ⟨"admin", 0, none⟩), ("bob", ⟨"member", 0, none⟩)]⟩)
      2 "carol" 7 (some "alice") = .error .limitReached :=
  (addMemberToGroup_limit
    ⟨"g", "alice", 0,
      [("alice", ⟨"admin", 0, none⟩), ("bob", ⟨"member", 0, none⟩)]⟩
    2 "carol" 7 (some "alice")).2.2 rfl

/-- Folding `setChild` over entries with pairwise-distinct keys appends
them all: no overwrite ever fires. -/
theorem foldl_setChild_eq_append {α : Type} (es acc : List (String × α))
    (h : ((acc ++ es).map Prod.fst).Nodup) :
    es.foldl (fun a p => setChild a p.1 p.2) acc = acc ++ es := by
  induction es generalizing acc with
  | nil => simp
  | cons e tl ih =>
    have h' := h
    rw [List.map_append, List.nodup_append] at h'
    have hmem : e.1 ∉ acc.map Prod.fst := by
      intro hc
      exact h'.2.2 hc (by simp)
    have hany : acc.any (fun p => p.1 = e.1) = false := by
      by_contra hc
      rw [Bool.not_eq_false, List.any_eq_true] at hc
      obtain ⟨x, hx, hx1⟩ := hc
      have hx1' : x.1 = e.1 := by simpa using hx1
      exact hmem (hx1' ▸ List.mem_map.mpr ⟨x, hx, rfl⟩)
    have hset : setChild acc e.1 e.2 = acc ++ [e] := by
      simp [setChild, hany]
    calc (e :: tl).foldl (fun a p => setChild a p.1 p.2) acc
        = tl.foldl (fun a p => setChild a p.1 p.2) (setChild acc e.1 e.2) := rfl
      _ = tl.foldl (fun a p => setChild a p.1 p.2) (acc ++ [e]) := by rw [hset]
      _ = (acc ++ [e]) ++ tl := by
            apply ih
            rwa [List.append_assoc, List.singleton_append]
      _ = acc ++ e :: tl := by rw [List.append_assoc, List.singleton_append]

/-- A JS object literal whose keys are pairwise distinct keeps its entries
in order. -/
theorem objOfEntries_eq_self {α : Type} (es : List (String × α))
    (h : (es.map Prod.fst).Nodup) : objOfEntries es = es := by
  have := foldl_setChild_eq_append es [] (by simpa using h)
  simpa [objOfEntries] using this

/-- `find?` over a constant-valued mapped list hits the sought key. -/
theorem find?_map_const {α : Type} (sel : List String) (u : String)
    (m : α) (hu : u ∈ sel) :
    (sel.map (fun w => (w, m))).find? (fun p => p.1 = u) = some (u, m) := by
  induction sel with
  | nil => cases hu
  | cons w tl ih =>
    by_cases hw : w = u
    · subst hw
      rw [List.map_cons, List.find?_cons_of_pos]
      simp
    · rcases List.mem_cons.mp hu with h | h
      · exact absurd h.symm hw
      · rw [List.map_cons, List.find?_cons_of_neg]
        · exact ih h
        · simp [hw]

/-- C8 counterexample: the group created by create("g", alice, [bob])
records the creating user with role `'admin'` and holds no member at all
with role `'creator'` — the claim's "exactly one member with role
creator" fails at this concrete creation. -/
theorem createGroup_admin_not_creator :
    ((createGroup "g" "alice" ["bob"] 0).map
      (fun g => (lookupEntry g.members "alice",
        (g.members.filter (fun p => p.2.role = "creator")).length))) =
      some (some ⟨"admin", 0, none⟩, 0) := by
  rfl

/-- C8 amended: creation records the creating user with role `'admin'`
(there is no `'creator'` role) and every initial member with role
`'member'`; the creator's identity lives in the immutable `createdBy`
field, which neither `addMemberToGroup` nor `removeMemberFromGroup` ever
changes. -/
theorem createGroup_roles (groupName creatorUid : String)
    (selectedUsers : List String) (now : Nat)
    (hname : jsTrim groupName ≠ "") (hsel : selectedUsers ≠ [])
    (hnodup : (creatorUid :: selectedUsers).Nodup) :
    createGroup groupName creatorUid selectedUsers now =
      some ⟨jsTrim groupName, creatorUid, now,
        (creatorUid, ⟨"admin", now, none⟩) ::
          selectedUsers.map (fun u => (u, ⟨"member", now, none⟩))⟩ ∧
    lookupEntry
      ((creatorUid, (⟨"admin", now, none⟩ : GroupMember)) ::
        selectedUsers.map (fun u => (u, ⟨"member", now, none⟩)))
      creatorUid = some ⟨"admin", now, none⟩ ∧
    (∀ u ∈ selectedUsers,
      lookupEntry
        ((creatorUid, (⟨"admin", now, none⟩ : GroupMember)) ::
          selectedUsers.map (fun u => (u, ⟨"member", now, none⟩)))
        u = some ⟨"member", now, none⟩) ∧
    (∀ p ∈ (creatorUid, (⟨"admin", now, none⟩ : GroupMember)) ::
        selectedUsers.map (fun u => (u, ⟨"member", now, none⟩)),
      p.2.role ≠ "creator") ∧
    (∀ (g0 : Group) (limit : Nat) (uid : String) (now2 : Nat)
        (actor : Option String) (g1 : Group),
      addMemberToGroup (some g0) limit uid now2 actor = .ok g1 →
        g1.createdBy = g0.createdBy) ∧
    (∀ (g0 : Group) (uid : String),
      (removeMemberFromGroup g0 uid).createdBy = g0.createdBy) := by
  have hmapfst : (selectedUsers.map
      (fun u => (u, (⟨"member", now, none⟩ : GroupMember)))).map Prod.fst =
        selectedUsers := by
    rw [List.map_map]
    exact List.map_id selectedUsers
  have hkeys : (((creatorUid, (⟨"admin", now, none⟩ : GroupMember)) ::
      selectedUsers.map (fun u => (u, ⟨"member", now, none⟩))).map
        Prod.fst).Nodup := by
    rw [List.map_cons, hmapfst]
    exact hnodup
  have hcnot : creatorUid ∉ selectedUsers := (List.nodup_cons.mp hnodup).1
  refine ⟨?_, ?_, ?_, ?_, ?_, ?_⟩
  · simp only [createGroup, objOfEntries_eq_self _ hkeys]
    rw [if_neg]
    push_neg
    exact ⟨hname, hsel⟩
  · rw [lookupEntry, List.find?_cons_of_pos _ (by simp)]
    rfl
  · intro u hu
    have hune : creatorUid ≠ u := fun he => hcnot (he ▸ hu)
    rw [lookupEntry, List.find?_cons_of_neg _ (by simp [hune]),
      find?_map_const selectedUsers u _ hu]
    rfl
  · intro p hp
    rcases List.mem_cons.mp hp with h | h
    · subst h
      show "admin" ≠ "creator"
      decide
    · obtain ⟨w, _, hw⟩ := List.mem_map.mp h
      rw [← hw]
      show "member" ≠ "creator"
      decide
  · intro g0 limit uid now2 actor g1 hok
    by_cases hl : g0.members.length ≥ limit
    · simp [addMemberToGroup, hl] at hok
    · simp only [addMemberToGroup, if_neg hl, Except.ok.injEq] at hok
      rw [← hok]
  · intro g0 uid
    rfl

/-- Witness for C8's amended claim: the concrete creation by alice with
initial member bob. -/
theorem createGroup_roles_witness :
    createGroup "g" "alice" ["bob"] 0 =
      some ⟨"g", "alice", 0,
        [("alice", ⟨"admin", 0, none⟩), ("bob", ⟨"member", 0, none⟩)]⟩ :=
  (createGroup_roles "g" "alice" ["bob"] 0 (by decide) (by decide)
    (by decide)).1

/-! ## Moderation & Policy (AdminContext.tsx settings, ChatLayout.tsx
maintenance gate)

`ChatLayout` renders a blocking maintenance screen whenever
`adminSettings.maintenanceMode && !isAdmin`, making every chat operation
unreachable for non-admin actors; admin actors pass through. -/

/-- The `featureFlags` member of the settings singleton. -/
structure FeatureFlags where
  enableGroupChat : Bool
  enableFileSharing : Bool
  enableVoiceMessages : Bool
  enableMessageReactions : Bool
  enableMessageDeletion : Bool
deriving DecidableEq

/-- The `adminSettings` singleton. -/
structure AdminSettings where
  maintenanceMode : Bool
  groupMemberLimit : Nat
  featureFlags : FeatureFlags
deriving DecidableEq

/-- The failure surfaced when the maintenance gate blocks a caller. -/
inductive OpError where
  | maintenanceMode
deriving DecidableEq

/-- `adminSettings.maintenanceMode && !isAdmin` from `ChatLayout.tsx`:
the condition under which the blocking maintenance screen replaces the
whole chat UI. -/
def maintenanceBlocked (settings : AdminSettings) (isAdmin : Bool) : Bool :=
  settings.maintenanceMode && !isAdmin

/-- An operation of the message store, conversation directory,
chat-request gate, or group manager, as reachable through the gated
layout: blocked actors get the maintenance failure and no state change,
everyone else runs the operation. -/
def gatedOp {σ : Type} (settings : AdminSettings) (isAdmin : Bool)
    (op : σ → σ) (s : σ) : Except OpError σ :=
  if maintenanceBlocked settings isAdmin then .error .maintenanceMode
  else .ok (op s)

/-- `message.send` as reachable through the gated layout. -/
def gatedSend (settings : AdminSettings) (isAdmin : Bool)
    (msgs : List Message) (sender text : String) (now : Nat) :
    Except OpError (List Message) :=
  gatedOp settings isAdmin (fun ms => handleSendMessage ms sender text now)
    msgs

/-- C9: while maintenance mode is on, every gated operation invoked by a
non-admin actor — message send included — fails with the maintenance
failure and produces no new state, while the same operation from an admin
actor succeeds; with maintenance mode off, non-admin operations succeed
again. -/
theorem maintenanceMode_gate {σ : Type} (settings : AdminSettings)
    (isAdmin : Bool) (op : σ → σ) (s : σ) (msgs : List Message)
    (sender text : String) (now : Nat) :
    (settings.maintenanceMode = true → isAdmin = false →
      gatedOp settings isAdmin op s = .error .maintenanceMode ∧
      gatedSend settings isAdmin msgs sender text now =
        .error .maintenanceMode) ∧
    (isAdmin = true →
      gatedOp settings isAdmin op s = .ok (op s) ∧
      gatedSend settings isAdmin msgs sender text now =
        .ok (handleSendMessage msgs sender text now)) ∧
    (settings.maintenanceMode = false →
      gatedOp settings isAdmin op s = .ok (op s) ∧
      gatedSend settings isAdmin msgs sender text now =
        .ok (handleSendMessage msgs sender text now)) := by
  refine ⟨fun hm ha => ⟨?_, ?_⟩, fun ha => ⟨?_, ?_⟩, fun hm => ⟨?_, ?_⟩⟩ <;>
    simp [gatedOp, gatedSend, maintenanceBlocked, *]

/-- Witness for C9: a concrete settings singleton with maintenance on
blocks a non-admin send. -/
theorem maintenanceMode_gate_witness :
    gatedSend ⟨true, 10, ⟨true, true, true, true, true⟩⟩ false []
      "alice" "hi" 3 = .error .maintenanceMode :=
  ((maintenanceMode_gate ⟨true, 10, ⟨true, true, true, true, true⟩⟩ false
    id ([] : List Message) [] "alice" "hi" 3).1 rfl rfl).2

/-! ## Sign-in suspension check (AuthContext `onAuthStateChanged` handler,
AdminContext.tsx `removeUser` / `disableUser`)

On session start the handler reads the user record; it signs the user out
when `isDisabled && disabledUntil && disabledUntil > Date.now()`, and
re-enables the record when `isDisabled && disabledUntil && disabledUntil
<= Date.now()`. -/

/-- The moderation fields of a stored user record that the sign-in check
reads and writes. -/
structure UserRecord where
  isDisabled : Bool
  disabledUntil : Option Nat
deriving DecidableEq

/-- What the sign-in handler decides for the user. -/
inductive SignInOutcome where
  | signedOut
  | proceed (u : UserRecord)
deriving DecidableEq

/-- The disabled-user check at sign-in: `userData.disabledUntil` is a JS
truthiness test, so a missing field (and the never-occurring value 0)
fails both guards. -/
def checkDisabledOnSignIn (u : UserRecord) (now : Nat) : SignInOutcome :=
  match u.disabledUntil with
  | none => .proceed u
  | some t =>
    if u.isDisabled && (t != 0) && decide (now < t) then .signedOut
    else if u.isDisabled && (t != 0) && decide (t ≤ now) then
      .proceed { u with isDisabled := false, disabledUntil := none }
    else .proceed u

/-- `removeUser(userId)` from `AdminContext.tsx`: merges
`{ isDisabled: true }` into the record — no `disabledUntil` is set. -/
def removeUser (u : UserRecord) : UserRecord :=
  { u with isDisabled := true }

/-- `disableUser(userId, durationInDays)`: merges `isDisabled: true` and
`disabledUntil = now + days * 24*60*60*1000`. -/
def disableUser (u : UserRecord) (durationInDays now : Nat) : UserRecord :=
  { u with isDisabled := true
           disabledUntil := some (now + durationInDays * 86400000) }

/-- C10: sign-in is rejected iff the record has `isDisabled` and a
`disabledUntil` strictly in the future; a record disabled by `removeUser`
(no `disabledUntil`) is not blocked; and an elapsed suspension is
re-enabled during that sign-in, clearing both fields. -/
theorem signIn_disabled_check (u : UserRecord) (now : Nat) :
    (checkDisabledOnSignIn u now = .signedOut ↔
      u.isDisabled = true ∧ ∃ t, u.disabledUntil = some t ∧ now < t) ∧
    (u.disabledUntil = none →
      checkDisabledOnSignIn (removeUser u) now = .proceed (removeUser u)) ∧
    (∀ t, u.isDisabled = true → u.disabledUntil = some t → 0 < t →
      t ≤ now →
      checkDisabledOnSignIn u now =
        .proceed { u with isDisabled := false, disabledUntil := none }) := by
  refine ⟨?_, fun hn => ?_, fun t hd hs hpos hle => ?_⟩
  · cases hdu : u.disabledUntil with
    | none => simp [checkDisabledOnSignIn, hdu]
    | some t =>
      cases hd : u.isDisabled with
      | false => simp [checkDisabledOnSignIn, hdu, hd]
      | true =>
        by_cases ht : now < t
        · have ht0 : t ≠ 0 := by omega
          simp [checkDisabledOnSignIn, hdu, hd, ht, ht0]
        · by_cases ht0 : t = 0
          · subst ht0
            simp [checkDisabledOnSignIn, hdu, hd]
          · have hle' : t ≤ now := by omega
            simp [checkDisabledOnSignIn, hdu, hd, ht, ht0, hle']
  · simp [checkDisabledOnSignIn, removeUser, hn]
  · have ht : ¬ now < t := by omega
    have ht0 : t ≠ 0 := by omega
    simp [checkDisabledOnSignIn, hs, hd, ht, ht0, hle]

/-- Witness for C10: a user whose suspension window ended at 5 signs in
at 10 and is re-enabled. -/
theorem signIn_disabled_check_witness :
    checkDisabledOnSignIn ⟨true, some 5⟩ 10 = .proceed ⟨false, none⟩ :=
  (signIn_disabled_check ⟨true, some 5⟩ 10).2.2 5 rfl rfl (by decide)
    (by decide)

end WhisperSync
